import Mathlib

/-!
Shallow embedding of the Landscape_project arcade-game scripts
(ColorFill.py, Landslide.py, Sequence.py, ColorHunt.py, main.py,
CatchTheColor.py) and proofs about their debounce logic, state machines,
shuffles and color convergence.

Conventions of the embedding:
* Python fixed-size lists holding per-button state (button_was_pressed,
  last_press_time, button_lockout_end_time, is_filled, and the 10-slot
  bank_colors arrays) are modelled as functions from Nat, with in-place
  element assignment modelled by Function.update.
* Python lists that are genuinely list-shaped (the color palettes, the
  shuffled sequence_order) are modelled as Lean lists.
* random.randint(0, i) and random.randrange(i + 1) are modelled by an
  oracle function r : Nat → Nat together with the hypothesis r i ≤ i;
  other random choices (random.choice) are oracle parameters as well.
* time.ticks_ms() is an input of every tick function; ticks_diff and
  ticks_add use the MicroPython wraparound semantics modulo 2 to the 30.
* LED and sound writes are pure display effects and are not part of the
  modelled state; prints and sleeps are dropped.
-/

namespace Landscape

/-- Number of button/LED banks; NUM_BUTTONS = 10 in every game script. -/
def NUM_BUTTONS : Nat := 10

/-- An RGB color: a 3-tuple of 8-bit channel values, as used in the scripts. -/
abbrev Color := Nat × Nat × Nat

/-- The color BLACK = (0, 0, 0). -/
def BLACK : Color := (0, 0, 0)

/-- MicroPython tick period: 2 to the 30.  time.ticks_ms wraps modulo this. -/
def TICKS_PERIOD : Nat := 1073741824

/-- Half of the tick period (2 to the 29), used by ticks_diff. -/
def TICKS_HALF : Nat := 536870912

/-- MicroPython time.ticks_diff(a, b): wraparound-safe signed difference of
two tick counters. -/
def ticks_diff (a b : Nat) : Int :=
  ((a : Int) - (b : Int) + TICKS_HALF) % TICKS_PERIOD - TICKS_HALF

/-- MicroPython time.ticks_add(t, d) for a nonnegative delta d. -/
def ticks_add (t d : Nat) : Nat := (t + d) % TICKS_PERIOD

/-- A raw input frame with the button at index i pressed and all others
released (active-low pins already folded into Bool: true means pressed). -/
def rawOnly (i : Nat) : Nat → Bool := fun j => j == i

/-- A raw input frame with buttons 2 and 5 simultaneously pressed. -/
def raw25 : Nat → Bool := fun j => j == 2 || j == 5

/-! ### Fisher–Yates shuffle
Sequence.micro_shuffle (using random.randint(0, i)) and shuffle_list in
ColorHunt.py / ColorFill.py (using random.randrange(i + 1)) are the same
in-place Fisher–Yates loop: for i in range(n - 1, 0, -1), pick j in [0, i]
and swap data[i] with data[j]. -/

/-- Swap the entries at positions i and j of a list, Python tuple-assignment
style: both values are read from the original list. -/
def listSwap {α : Type} [Inhabited α] (l : List α) (i j : Nat) : List α :=
  (l.set i (l.getD j default)).set j (l.getD i default)

/-- The downward sweep of the Fisher–Yates loop: with fuel k, swap positions
k, k-1, ..., 1, each with a partner chosen by the oracle r. -/
def shuffleFrom {α : Type} [Inhabited α] (r : Nat → Nat) : Nat → List α → List α
  | 0, l => l
  | k + 1, l => shuffleFrom r k (listSwap l (k + 1) (r (k + 1)))

/-- The Fisher–Yates shuffle of the scripts (micro_shuffle / shuffle_list):
iterate i from len - 1 down to 1, swapping slot i with slot r i. -/
def fisherYates {α : Type} [Inhabited α] (r : Nat → Nat) (l : List α) : List α :=
  shuffleFrom r (l.length - 1) l

/-- Distance between two Nat channel values (truncated subtraction both
ways, so this is the absolute difference). -/
def natDist (a b : Nat) : Nat := (a - b) + (b - a)

end Landscape

namespace Landscape.ColorFill

/-- DEBOUNCE_MS = 120 in ColorFill.py. -/
def DEBOUNCE_MS : Nat := 120

/-- COLOR_PALETTE of ColorFill.py: 10 distinct colors. -/
def COLOR_PALETTE : List Color :=
  [(255, 0, 0), (0, 255, 0), (0, 0, 255),
   (255, 255, 0), (255, 120, 120), (255, 69, 1),
   (94, 249, 32), (255, 255, 255), (108, 0, 108),
   (100, 255, 255)]

/-- Per-button input state of ColorFill.py: the button_was_pressed and
last_press_time arrays, indexed by button. -/
structure BtnState where
  was : Nat → Bool
  lastT : Nat → Nat

/-- The for-loop of handle_button_press over the remaining button indices.
On a released-to-pressed edge the press is accepted (returning the index
and recording both the timestamp and the pressed state) only when
ticks_diff(now, last_press_time[i]) > DEBOUNCE_MS; otherwise the edge is
recorded as a bounce without emitting; a release resets edge detection.
The function returns as soon as a press is accepted, leaving the state of
the later indices untouched for this tick. -/
def hbpFrom (raw : Nat → Bool) (now : Nat) : List Nat → BtnState → Int × BtnState
  | [], s => (-1, s)
  | i :: rest, s =>
    if raw i && !(s.was i) then
      if ticks_diff now (s.lastT i) > (DEBOUNCE_MS : Int) then
        ((i : Int), ⟨Function.update s.was i true, Function.update s.lastT i now⟩)
      else
        hbpFrom raw now rest ⟨Function.update s.was i true, s.lastT⟩
    else if !(raw i) then
      hbpFrom raw now rest ⟨Function.update s.was i false, s.lastT⟩
    else
      hbpFrom raw now rest s

/-- handle_button_press of ColorFill.py: edge detection plus debounce over
buttons 0..9, first accepted press wins; -1 means no event. -/
def handle_button_press (raw : Nat → Bool) (now : Nat) (s : BtnState) :
    Int × BtnState :=
  hbpFrom raw now (List.range NUM_BUTTONS) s

/-- Game states of ColorFill.py. -/
inductive CFGameState where
  | WAITING_FOR_COLOR_SELECT
  | COLOR_FILL_GAME
  | WIN_STATE
deriving DecidableEq

/-- The global game state of ColorFill.py. -/
structure CFState where
  gs : CFGameState
  target_color : Color
  initial_button_index : Int
  start_display_ready : Bool
  is_filled : Nat → Bool
  bank_colors : Nat → Color
  btn : BtnState

/-- setup_color_select_display: every bank shows its own palette color
(bank_colors = list(COLOR_PALETTE[:NUM_BUTTONS])). -/
def setup_color_select_display (s : CFState) : CFState :=
  { s with bank_colors := fun i => COLOR_PALETTE.getD i BLACK }

/-- setup_color_fill_game: all banks reset to not-filled and BLACK except
the initially pressed one, which is filled with the target color. -/
def setup_color_fill_game (s : CFState) (initial_index : Nat) (target : Color) :
    CFState :=
  { s with is_filled := Function.update (fun _ => false) initial_index true,
           bank_colors := Function.update (fun _ => BLACK) initial_index target }

/-- The all(is_filled) win test over the 10 banks. -/
def all_filled (f : Nat → Bool) : Bool := (List.range NUM_BUTTONS).all f

/-- The COLOR_FILL_GAME branch of run_game_loop, given an accepted button
index b: an already-filled bank is left alone; otherwise the bank is filled
with the target color and the machine enters WIN_STATE exactly when all
banks are now filled. -/
def color_fill_press (s : CFState) (b : Nat) : CFState :=
  if s.is_filled b then s
  else
    let filled := Function.update s.is_filled b true
    let s1 := { s with
      bank_colors := Function.update s.bank_colors b s.target_color,
      is_filled := filled }
    if all_filled filled then { s1 with gs := CFGameState.WIN_STATE } else s1

/-- One call of run_game_loop of ColorFill.py (one tick of the state
machine), with the raw button frame and the current tick count as inputs. -/
def run_game_loop (raw : Nat → Bool) (now : Nat) (s : CFState) : CFState :=
  match s.gs with
  | CFGameState.WAITING_FOR_COLOR_SELECT =>
    let s :=
      if !s.start_display_ready then
        { setup_color_select_display s with start_display_ready := true }
      else s
    let p := handle_button_press raw now s.btn
    let s := { s with btn := p.2 }
    if p.1 ≠ -1 then
      let b := p.1.toNat
      let s := { s with
        target_color := s.bank_colors b,
        initial_button_index := p.1,
        gs := CFGameState.COLOR_FILL_GAME }
      { setup_color_fill_game s b s.target_color with start_display_ready := false }
    else s
  | CFGameState.COLOR_FILL_GAME =>
    let p := handle_button_press raw now s.btn
    let s := { s with btn := p.2 }
    if p.1 ≠ -1 then color_fill_press s p.1.toNat else s
  | CFGameState.WIN_STATE =>
    { s with target_color := BLACK,
             initial_button_index := -1,
             is_filled := fun _ => false,
             gs := CFGameState.WAITING_FOR_COLOR_SELECT }

/-- The invariant relating is_filled, bank_colors and target_color in the
color-fill game: a bank is marked filled exactly when it shows the target
color, and unfilled banks stay BLACK. -/
def cf_invariant (s : CFState) : Prop :=
  ∀ i, i < NUM_BUTTONS →
    (s.is_filled i = true ↔ s.bank_colors i = s.target_color) ∧
    (s.is_filled i = false → s.bank_colors i = BLACK)

/-- A fresh ColorFill state as at program start. -/
def cfFresh : CFState :=
  { gs := CFGameState.WAITING_FOR_COLOR_SELECT,
    target_color := BLACK,
    initial_button_index := -1,
    start_display_ready := false,
    is_filled := fun _ => false,
    bank_colors := fun _ => BLACK,
    btn := ⟨fun _ => false, fun _ => 0⟩ }

/-- Scenario start state for the fill game: target (255, 0, 0) chosen at
index 3, exactly bank 3 filled (the state produced by setup_color_fill_game). -/
def cfScenarioStart : CFState :=
  setup_color_fill_game
    { gs := CFGameState.COLOR_FILL_GAME,
      target_color := (255, 0, 0),
      initial_button_index := 3,
      start_display_ready := false,
      is_filled := fun _ => false,
      bank_colors := fun _ => BLACK,
      btn := ⟨fun _ => false, fun _ => 0⟩ } 3 (255, 0, 0)

/-- Debounce counterexample data: a press on button 0 accepted at t = 200. -/
def c1s1 : BtnState :=
  (handle_button_press (rawOnly 0) 200 ⟨fun _ => false, fun _ => 0⟩).2

/-- Debounce counterexample data: the release observed at t = 210. -/
def c1s2 : BtnState := (handle_button_press (fun _ => false) 210 c1s1).2

end Landscape.ColorFill

namespace Landscape.Landslide

/-- COLOR_PALETTE of Landslide.py. -/
def COLOR_PALETTE : List Color :=
  [(255, 0, 0), (0, 255, 0), (0, 0, 255),
   (255, 255, 0), (255, 0, 255), (0, 255, 255),
   (255, 128, 0), (255, 255, 255), (128, 0, 128),
   (0, 128, 255)]

/-- colors_match of Landslide.py: exact tuple equality. -/
def colors_match (c1 c2 : Color) : Bool := c1 == c2

/-- One channel of shift_color_towards: move by at most step toward the
target channel value, clamping at the target. -/
def shiftChannel (c t step : Nat) : Nat :=
  if c < t then min (c + step) t
  else if c > t then max (c - step) t
  else c

/-- shift_color_towards of Landslide.py (default step is 40): move each
channel by at most step toward the target, never overshooting. -/
def shift_color_towards (current target : Color) (step : Nat) : Color :=
  (shiftChannel current.1 target.1 step,
   shiftChannel current.2.1 target.2.1 step,
   shiftChannel current.2.2 target.2.2 step)

/-- all_banks_same_color of Landslide.py: every bank's tuple equals the
tuple of bank 0, by exact equality. -/
def all_banks_same_color (bank_colors : Nat → Color) : Bool :=
  (List.range NUM_BUTTONS).all fun i => colors_match (bank_colors 0) (bank_colors i)

/-- Mutable state of the Landslide.py main loop. -/
structure LState where
  bank_colors : Nat → Color
  was : Nat → Bool
  lockout_end : Nat → Nat

/-- Input events processed by the Landslide loop body. -/
inductive LEvent where
  | pressed (i : Nat)
  | lockedPress (i : Nat)
deriving DecidableEq

/-- The body of the Landslide.py main loop for one button index i:
expire the lockout if due, then on a new released-to-pressed edge either
apply the lockout penalty (press during lockout) or process a normal press
(set a 500 ms lockout; shift the bank toward bank 0 unless i = 0; on full
convergence reset the banks to fresh random colors); finally record the
raw level for edge detection. -/
def landslide_button (now : Nat) (raw : Nat → Bool) (fresh : Nat → Color)
    (s : LState) (i : Nat) : LState × List LEvent :=
  let s :=
    if s.lockout_end i ≠ 0 ∧ ticks_diff now (s.lockout_end i) ≥ 0 then
      { s with lockout_end := Function.update s.lockout_end i 0 }
    else s
  if raw i && !(s.was i) then
    if ticks_diff now (s.lockout_end i) < 0 then
      ({ s with lockout_end := Function.update s.lockout_end i (ticks_add now 2000),
                was := Function.update s.was i (raw i) },
       [LEvent.lockedPress i])
    else
      let s := { s with lockout_end := Function.update s.lockout_end i (ticks_add now 500) }
      if i = 0 then
        ({ s with was := Function.update s.was i (raw i) }, [LEvent.pressed 0])
      else
        let target := s.bank_colors 0
        let shifted := Function.update s.bank_colors i (shift_color_towards (s.bank_colors i) target 40)
        let s := { s with bank_colors := shifted }
        let s :=
          if all_banks_same_color s.bank_colors then { s with bank_colors := fresh }
          else s
        ({ s with was := Function.update s.was i (raw i) }, [LEvent.pressed i])
  else
    ({ s with was := Function.update s.was i (raw i) }, [])

/-- One pass of the Landslide.py while-loop over all 10 buttons in index
order.  There is no break: every button that shows a new press in this
tick is processed. -/
def landslide_tick (now : Nat) (raw : Nat → Bool) (fresh : Nat → Color)
    (s : LState) : LState × List LEvent :=
  (List.range NUM_BUTTONS).foldl
    (fun acc i =>
      let r := landslide_button now raw fresh acc.1 i
      (r.1, acc.2 ++ r.2))
    (s, [])

/-- Scenario start state: distinct bank colors (the palette), no press
history, no lockouts. -/
def lsScenarioStart : LState :=
  { bank_colors := fun i => COLOR_PALETTE.getD i BLACK,
    was := fun _ => false,
    lockout_end := fun _ => 0 }

end Landscape.Landslide

namespace Landscape.Sequence

/-- COLOR_PALETTE of Sequence.py. -/
def COLOR_PALETTE : List Color :=
  [(255, 0, 0), (0, 255, 0), (0, 0, 255),
   (255, 255, 0), (255, 0, 255), (0, 255, 255),
   (255, 128, 0), (255, 255, 255), (128, 0, 128),
   (0, 128, 255)]

/-- WAIT_DELAY_FRAMES = 50 in Sequence.py. -/
def WAIT_DELAY_FRAMES : Nat := 50

/-- Game states of Sequence.py (string tags in the source). -/
inductive SGameState where
  | WAIT_FOR_START
  | CONSUME_START_PRESS
  | SETUP
  | SHOW_STEP
  | PLAYER_TURN
  | WIN
  | FAIL
deriving DecidableEq

/-- The global state of Sequence.py. -/
structure SState where
  gs : SGameState
  game_color : Color
  sequence_order : List Nat
  current_step_index : Nat
  was : Nat → Bool
  wait_anim_index : Nat
  wait_anim_frame_counter : Nat

/-- micro_shuffle of Sequence.py: in-place Fisher–Yates with
random.randint(0, i), modelled by the oracle r. -/
def micro_shuffle (r : Nat → Nat) (l : List Nat) : List Nat := fisherYates r l

/-- setup_game: pick a random round color, shuffle list(range(NUM_BUTTONS))
into sequence_order, reset the cursor and show the first step. -/
def setup_game (randColor : Color) (r : Nat → Nat) (s : SState) : SState :=
  { s with game_color := randColor,
           sequence_order := micro_shuffle r (List.range NUM_BUTTONS),
           current_step_index := 0,
           gs := SGameState.SHOW_STEP }

/-- show_current_step: light the expected bank (display only) and hand the
turn to the player. -/
def show_current_step (s : SState) : SState :=
  { s with gs := SGameState.PLAYER_TURN }

/-- handle_player_turn of Sequence.py: a correct press advances the cursor
by one and wins the round once all NUM_BUTTONS steps are done; a wrong
press moves to FAIL with the cursor unchanged. -/
def handle_player_turn (s : SState) (pressed_idx : Nat) : SState :=
  let expected_idx := s.sequence_order.getD s.current_step_index 0
  if pressed_idx = expected_idx then
    let c := s.current_step_index + 1
    { s with current_step_index := c,
             gs := if c ≥ NUM_BUTTONS then SGameState.WIN else SGameState.SHOW_STEP }
  else
    { s with gs := SGameState.FAIL }

/-- The PLAYER_TURN scan of the Sequence.py main loop.  On the first new
press it calls handle_player_turn and then breaks out of the for-loop; the
break sits before the history update, so button_was_pressed of the handled
button is NOT set in that tick.  The returned list holds the indices of
the presses handled this tick. -/
def player_turn_scan (raw : Nat → Bool) : List Nat → SState → SState × List Nat
  | [], s => (s, [])
  | i :: rest, s =>
    if raw i && !(s.was i) then
      (handle_player_turn s i, [i])
    else
      player_turn_scan raw rest { s with was := Function.update s.was i (raw i) }

/-- handle_fail: flash red (display), reset the attract animation and go
back to WAIT_FOR_START. -/
def handle_fail (s : SState) : SState :=
  { s with wait_anim_index := 0, wait_anim_frame_counter := 0,
           gs := SGameState.WAIT_FOR_START }

/-- handle_win: celebrate (display), reset the cursor and the attract
animation and go back to WAIT_FOR_START. -/
def handle_win (s : SState) : SState :=
  { s with current_step_index := 0, wait_anim_index := 0,
           wait_anim_frame_counter := 0, gs := SGameState.WAIT_FOR_START }

/-- One iteration of the Sequence.py main while-loop, returning the new
state and the indices of the presses handled in this tick. -/
def sequence_tick (raw : Nat → Bool) (randColor : Color) (r : Nat → Nat)
    (s : SState) : SState × List Nat :=
  match s.gs with
  | SGameState.WAIT_FOR_START =>
    let c := s.wait_anim_frame_counter + 1
    let s :=
      if c ≥ WAIT_DELAY_FRAMES then
        { s with wait_anim_frame_counter := 0,
                 wait_anim_index := (s.wait_anim_index + 1) % NUM_BUTTONS }
      else { s with wait_anim_frame_counter := c }
    if (List.range NUM_BUTTONS).any raw then
      ({ s with gs := SGameState.CONSUME_START_PRESS }, [])
    else (s, [])
  | SGameState.CONSUME_START_PRESS =>
    if (List.range NUM_BUTTONS).all (fun i => !(raw i)) then
      ({ s with was := fun _ => false, gs := SGameState.SETUP }, [])
    else (s, [])
  | SGameState.SETUP => (setup_game randColor r s, [])
  | SGameState.SHOW_STEP => (show_current_step s, [])
  | SGameState.PLAYER_TURN => player_turn_scan raw (List.range NUM_BUTTONS) s
  | SGameState.WIN => (handle_win s, [])
  | SGameState.FAIL => (handle_fail s, [])

/-- Run n consecutive ticks under a constant raw input frame (a button held
across ticks), collecting the handled press indices of every tick. -/
def sequence_run (raw : Nat → Bool) (randColor : Color) (r : Nat → Nat) :
    Nat → SState → SState × List Nat
  | 0, s => (s, [])
  | n + 1, s =>
    let t := sequence_tick raw randColor r s
    let rest := sequence_run raw randColor r n t.1
    (rest.1, t.2 ++ rest.2)

/-- Scenario: PLAYER_TURN at the start of a round whose order begins with 4. -/
def seqScenarioHold : SState :=
  { gs := SGameState.PLAYER_TURN,
    game_color := BLACK,
    sequence_order := [4, 0, 7, 1, 2, 3, 5, 6, 8, 9],
    current_step_index := 0,
    was := fun _ => false,
    wait_anim_index := 0,
    wait_anim_frame_counter := 0 }

/-- Scenario: PLAYER_TURN with the identity order, no press history. -/
def seqScenario25 : SState :=
  { gs := SGameState.PLAYER_TURN,
    game_color := BLACK,
    sequence_order := List.range NUM_BUTTONS,
    current_step_index := 0,
    was := fun _ => false,
    wait_anim_index := 0,
    wait_anim_frame_counter := 0 }

end Landscape.Sequence

namespace Landscape.ColorHunt

/-- COLOR_PALETTE of ColorHunt.py. -/
def COLOR_PALETTE : List Color :=
  [(255, 0, 0), (0, 255, 0), (0, 0, 255),
   (255, 255, 0), (255, 0, 255), (0, 255, 255),
   (255, 128, 0), (255, 255, 255), (128, 0, 128),
   (0, 128, 255)]

/-- shuffle_list of ColorHunt.py: in-place Fisher–Yates with
random.randrange(i + 1), modelled by the oracle r. -/
def shuffle_list (r : Nat → Nat) (l : List Color) : List Color := fisherYates r l

/-- Game states of ColorHunt.py. -/
inductive CHGameState where
  | WAITING_FOR_START
  | MEMORIZE_PHASE
  | WAITING_FOR_GUESS
deriving DecidableEq

/-- The global state of ColorHunt.py. -/
structure CHState where
  gs : CHGameState
  target_color : Color
  correct_guess_index : Int
  initial_button_index : Int
  start_display_ready : Bool
  was : Nat → Bool
  bank_colors : List Color

/-- setup_target_display of ColorHunt.py: shuffle a copy of the palette and
show its first NUM_BUTTONS colors on the banks. -/
def setup_target_display (r : Nat → Nat) (s : CHState) : CHState :=
  { s with bank_colors := (shuffle_list r COLOR_PALETTE).take NUM_BUTTONS }

/-- The for-loop of ColorHunt.py handle_button_press: plain edge detection
without a debounce interval; the first new press is returned at once. -/
def hbpFrom (raw : Nat → Bool) : List Nat → (Nat → Bool) → Int × (Nat → Bool)
  | [], was => (-1, was)
  | i :: rest, was =>
    if raw i && !(was i) then
      ((i : Int), Function.update was i (raw i))
    else
      hbpFrom raw rest (Function.update was i (raw i))

/-- handle_button_press of ColorHunt.py over buttons 0..9. -/
def handle_button_press (raw : Nat → Bool) (was : Nat → Bool) :
    Int × (Nat → Bool) :=
  hbpFrom raw (List.range NUM_BUTTONS) was

/-- The press half of ColorHunt.py's WAITING_FOR_START branch: poll the
buttons and, on a press, adopt the color shown on the pressed bank as the
target and enter MEMORIZE_PHASE; otherwise only the edge history changes. -/
def select_phase (raw : Nat → Bool) (s : CHState) : CHState :=
  if (handle_button_press raw s.was).1 ≠ -1 then
    { s with was := (handle_button_press raw s.was).2,
             target_color := s.bank_colors.getD (handle_button_press raw s.was).1.toNat BLACK,
             initial_button_index := (handle_button_press raw s.was).1,
             gs := CHGameState.MEMORIZE_PHASE,
             start_display_ready := false }
  else { s with was := (handle_button_press raw s.was).2 }

/-- The WAITING_FOR_START branch of run_game_loop of ColorHunt.py: show the
shuffled select display once (setting the ready flag), then run the press
half. -/
def run_waiting_for_start (raw : Nat → Bool) (r : Nat → Nat) (s : CHState) :
    CHState :=
  select_phase raw
    (if !s.start_display_ready then
      { setup_target_display r s with start_display_ready := true }
    else s)

/-- A fresh ColorHunt state as at program start. -/
def chFresh : CHState :=
  { gs := CHGameState.WAITING_FOR_START,
    target_color := BLACK,
    correct_guess_index := -1,
    initial_button_index := -1,
    start_display_ready := false,
    was := fun _ => false,
    bank_colors := List.replicate NUM_BUTTONS BLACK }

end Landscape.ColorHunt

namespace Landscape.MainLoop

/-- The exception-handling skeleton of the ColorFill.py / ColorHunt.py
entry points: while True, run one tick inside try/except; a raised error is
caught at the loop boundary (logged, short pause) and the loop continues
with whatever state the tick left behind.  The tick body is abstracted as a
fallible function whose error carries the state at the raise point. -/
def guardedLoop {S E : Type} (tick : S → Except (E × S) S) :
    Nat → S → Except E S
  | 0, s => Except.ok s
  | n + 1, s =>
    match tick s with
    | Except.ok s1 => guardedLoop tick n s1
    | Except.error es => guardedLoop tick n es.2

/-- The skeleton of the Landslide.py / Sequence.py / main.py /
CatchTheColor.py entry points: while True with no try/except around the
tick; an uncaught error propagates and the loop terminates. -/
def bareLoop {S E : Type} (tick : S → Except (E × S) S) :
    Nat → S → Except E S
  | 0, s => Except.ok s
  | n + 1, s =>
    match tick s with
    | Except.ok s1 => bareLoop tick n s1
    | Except.error es => Except.error es.1

end Landscape.MainLoop

namespace Landscape

/-! ## Theorems -/

/-- For counters that have not wrapped, ticks_diff is the plain difference. -/
theorem ticks_diff_of_le (a b : Nat) (hba : b ≤ a) (h : a - b < TICKS_HALF) :
    ticks_diff a b = (a : Int) - b := by
  unfold TICKS_HALF at h
  unfold ticks_diff TICKS_HALF TICKS_PERIOD
  push_cast
  rw [Int.emod_eq_of_lt (by omega) (by omega)]
  omega

theorem length_listSwap {α : Type} [Inhabited α] (l : List α) (i j : Nat) :
    (listSwap l i j).length = l.length := by
  simp [listSwap]

theorem set_getD_self {α : Type} [Inhabited α] :
    ∀ (l : List α) (i : Nat), i < l.length → l.set i (l.getD i default) = l := by
  intro l
  induction l with
  | nil => intro i h; simp at h
  | cons a tl ih =>
    intro i h
    cases i with
    | zero => rfl
    | succ k =>
      have hk : k < tl.length := by simpa using h
      show a :: tl.set k (tl.getD k default) = a :: tl
      rw [ih k hk]

theorem getD_cons_perm_set {α : Type} [Inhabited α] :
    ∀ (t : List α) (m : Nat) (a : α), m < t.length →
      List.Perm (t.getD m default :: t.set m a) (a :: t) := by
  intro t
  induction t with
  | nil => intro m a h; simp at h
  | cons b tl ih =>
    intro m a h
    cases m with
    | zero =>
      show List.Perm (b :: a :: tl) (a :: b :: tl)
      exact List.Perm.swap a b tl
    | succ k =>
      have hk : k < tl.length := by simpa using h
      show List.Perm (tl.getD k default :: b :: tl.set k a) (a :: b :: tl)
      exact List.Perm.trans (List.Perm.swap b (tl.getD k default) (tl.set k a))
        (List.Perm.trans (List.Perm.cons b (ih k a hk)) (List.Perm.swap a b tl))

theorem listSwap_perm {α : Type} [Inhabited α] :
    ∀ (l : List α) (i j : Nat), i < l.length → j < l.length →
      List.Perm (listSwap l i j) l := by
  intro l
  induction l with
  | nil => intro i j hi; simp at hi
  | cons a tl ih =>
    intro i j hi hj
    cases i with
    | zero =>
      cases j with
      | zero =>
        show List.Perm ((((a :: tl).set 0 ((a :: tl).getD 0 default)).set 0
          ((a :: tl).getD 0 default))) (a :: tl)
        rw [List.set_set, set_getD_self (a :: tl) 0 hi]
      | succ m =>
        have hm : m < tl.length := by simpa using hj
        show List.Perm (tl.getD m default :: tl.set m a) (a :: tl)
        exact getD_cons_perm_set tl m a hm
    | succ p =>
      have hp : p < tl.length := by simpa using hi
      cases j with
      | zero =>
        show List.Perm (tl.getD p default :: tl.set p a) (a :: tl)
        exact getD_cons_perm_set tl p a hp
      | succ m =>
        have hm : m < tl.length := by simpa using hj
        show List.Perm (a :: listSwap tl p m) (a :: tl)
        exact List.Perm.cons a (ih p m hp hm)

theorem shuffleFrom_perm {α : Type} [Inhabited α] (r : Nat → Nat)
    (hr : ∀ m, r m ≤ m) :
    ∀ (k : Nat) (l : List α), k < l.length →
      List.Perm (shuffleFrom r k l) l := by
  intro k
  induction k with
  | zero => intro l _; exact List.Perm.refl l
  | succ n ih =>
    intro l hk
    have hidx : n + 1 < l.length := hk
    have hj : r (n + 1) < l.length := Nat.lt_of_le_of_lt (hr (n + 1)) hidx
    have hswap : List.Perm (listSwap l (n + 1) (r (n + 1))) l :=
      listSwap_perm l (n + 1) (r (n + 1)) hidx hj
    have hlen : (listSwap l (n + 1) (r (n + 1))).length = l.length :=
      length_listSwap l _ _
    have hn : n < (listSwap l (n + 1) (r (n + 1))).length := by omega
    exact List.Perm.trans (ih (listSwap l (n + 1) (r (n + 1))) hn) hswap

theorem fisherYates_perm {α : Type} [Inhabited α] (r : Nat → Nat)
    (hr : ∀ m, r m ≤ m) (l : List α) (hl : 0 < l.length) :
    List.Perm (fisherYates r l) l := by
  unfold fisherYates
  exact shuffleFrom_perm r hr (l.length - 1) l (by omega)

theorem length_shuffleFrom {α : Type} [Inhabited α] (r : Nat → Nat) :
    ∀ (k : Nat) (l : List α), (shuffleFrom r k l).length = l.length := by
  intro k
  induction k with
  | zero => intro l; rfl
  | succ n ih =>
    intro l
    show (shuffleFrom r n (listSwap l (n + 1) (r (n + 1)))).length = l.length
    rw [ih, length_listSwap]

theorem range_split (i : Nat) :
    ∀ n, i < n → ∃ L2, List.range n = List.range i ++ i :: L2 := by
  intro n
  induction n with
  | zero => intro h; omega
  | succ m ih =>
    intro h
    by_cases him : i = m
    · subst him
      refine ⟨[], ?_⟩
      simpa using List.range_succ (n := i)
    · have hlt : i < m := by omega
      obtain ⟨L2, hL⟩ := ih hlt
      refine ⟨L2 ++ [m], ?_⟩
      rw [List.range_succ, hL]
      simp

/-- If no index in the scanned list satisfies the full accept condition of
ColorFill's handle_button_press, the scan returns -1 and never touches any
last_press_time entry. -/
theorem cf_hbp_none (raw : Nat → Bool) (now : Nat) :
    ∀ (L : List Nat) (s : ColorFill.BtnState),
      (∀ j ∈ L, raw j = false ∨ s.was j = true ∨
        ¬ (ticks_diff now (s.lastT j) > (ColorFill.DEBOUNCE_MS : Int))) →
      (ColorFill.hbpFrom raw now L s).1 = -1 ∧
      (ColorFill.hbpFrom raw now L s).2.lastT = s.lastT := by
  intro L
  induction L with
  | nil => intro s _; exact ⟨rfl, rfl⟩
  | cons j rest ih =>
    intro s h
    by_cases hraw : raw j = true
    · by_cases hwas : s.was j = true
      · have hstep : ColorFill.hbpFrom raw now (j :: rest) s
            = ColorFill.hbpFrom raw now rest s := by
          simp [ColorFill.hbpFrom, hraw, hwas]
        rw [hstep]
        exact ih s (fun k hk => h k (List.mem_cons_of_mem j hk))
      · have hwf : s.was j = false := by simpa using hwas
        have hdiff : ¬ (ticks_diff now (s.lastT j) > (ColorFill.DEBOUNCE_MS : Int)) := by
          rcases h j (List.mem_cons_self j rest) with h1 | h2 | h3
          · rw [hraw] at h1; exact absurd h1 (by simp)
          · exact absurd h2 hwas
          · exact h3
        have hstep : ColorFill.hbpFrom raw now (j :: rest) s
            = ColorFill.hbpFrom raw now rest ⟨Function.update s.was j true, s.lastT⟩ := by
          simp [ColorFill.hbpFrom, hraw, hwf, hdiff]
        rw [hstep]
        refine ih ⟨Function.update s.was j true, s.lastT⟩ (fun k hk => ?_)
        by_cases hkj : k = j
        · subst hkj
          exact Or.inr (Or.inl (by simp [Function.update_same]))
        · rcases h k (List.mem_cons_of_mem j hk) with h1 | h2 | h3
          · exact Or.inl h1
          · exact Or.inr (Or.inl (by simpa [Function.update_noteq hkj] using h2))
          · exact Or.inr (Or.inr h3)
    · have hrf : raw j = false := by simpa using hraw
      have hstep : ColorFill.hbpFrom raw now (j :: rest) s
          = ColorFill.hbpFrom raw now rest ⟨Function.update s.was j false, s.lastT⟩ := by
        simp [ColorFill.hbpFrom, hrf]
      rw [hstep]
      refine ih ⟨Function.update s.was j false, s.lastT⟩ (fun k hk => ?_)
      by_cases hkj : k = j
      · subst hkj
        exact Or.inl hrf
      · rcases h k (List.mem_cons_of_mem j hk) with h1 | h2 | h3
        · exact Or.inl h1
        · exact Or.inr (Or.inl (by simpa [Function.update_noteq hkj] using h2))
        · exact Or.inr (Or.inr h3)

/-- First-match-wins for ColorFill's handle_button_press scan: if no index
before i satisfies the accept condition and i does, the scan returns i and
records now as the accepted timestamp of button i. -/
theorem cf_hbp_accept (raw : Nat → Bool) (now : Nat) :
    ∀ (L1 : List Nat) (i : Nat) (L2 : List Nat) (s : ColorFill.BtnState),
      i ∉ L1 →
      (∀ j ∈ L1, raw j = false ∨ s.was j = true ∨
        ¬ (ticks_diff now (s.lastT j) > (ColorFill.DEBOUNCE_MS : Int))) →
      raw i = true → s.was i = false →
      ticks_diff now (s.lastT i) > (ColorFill.DEBOUNCE_MS : Int) →
      (ColorFill.hbpFrom raw now (L1 ++ i :: L2) s).1 = (i : Int) ∧
      (ColorFill.hbpFrom raw now (L1 ++ i :: L2) s).2.lastT
        = Function.update s.lastT i now := by
  intro L1
  induction L1 with
  | nil =>
    intro i L2 s _ _ hri hwi hdi
    constructor
    · simp [ColorFill.hbpFrom, hri, hwi, hdi]
    · simp [ColorFill.hbpFrom, hri, hwi, hdi]
  | cons j rest ih =>
    intro i L2 s hni h hri hwi hdi
    have hij : i ≠ j := by
      intro e
      exact hni (by simp [e])
    have hini : i ∉ rest := fun hm => hni (List.mem_cons_of_mem j hm)
    have happ : (j :: rest) ++ i :: L2 = j :: (rest ++ i :: L2) := rfl
    rw [happ]
    by_cases hraw : raw j = true
    · by_cases hwas : s.was j = true
      · have hstep : ColorFill.hbpFrom raw now (j :: (rest ++ i :: L2)) s
            = ColorFill.hbpFrom raw now (rest ++ i :: L2) s := by
          simp [ColorFill.hbpFrom, hraw, hwas]
        rw [hstep]
        exact ih i L2 s hini (fun k hk => h k (List.mem_cons_of_mem j hk)) hri hwi hdi
      · have hwf : s.was j = false := by simpa using hwas
        have hdiff : ¬ (ticks_diff now (s.lastT j) > (ColorFill.DEBOUNCE_MS : Int)) := by
          rcases h j (List.mem_cons_self j rest) with h1 | h2 | h3
          · rw [hraw] at h1; exact absurd h1 (by simp)
          · exact absurd h2 hwas
          · exact h3
        have hstep : ColorFill.hbpFrom raw now (j :: (rest ++ i :: L2)) s
            = ColorFill.hbpFrom raw now (rest ++ i :: L2)
                ⟨Function.update s.was j true, s.lastT⟩ := by
          simp [ColorFill.hbpFrom, hraw, hwf, hdiff]
        rw [hstep]
        have hres := ih i L2 ⟨Function.update s.was j true, s.lastT⟩ hini
          (fun k hk => ?_) (by exact hri) (by simpa [Function.update_noteq hij] using hwi) hdi
        · exact hres
        by_cases hkj : k = j
        · subst hkj
          exact Or.inr (Or.inl (by simp [Function.update_same]))
        · rcases h k (List.mem_cons_of_mem j hk) with h1 | h2 | h3
          · exact Or.inl h1
          · exact Or.inr (Or.inl (by simpa [Function.update_noteq hkj] using h2))
          · exact Or.inr (Or.inr h3)
    · have hrf : raw j = false := by simpa using hraw
      have hstep : ColorFill.hbpFrom raw now (j :: (rest ++ i :: L2)) s
          = ColorFill.hbpFrom raw now (rest ++ i :: L2)
              ⟨Function.update s.was j false, s.lastT⟩ := by
        simp [ColorFill.hbpFrom, hrf]
      rw [hstep]
      have hres := ih i L2 ⟨Function.update s.was j false, s.lastT⟩ hini
        (fun k hk => ?_) (by exact hri) (by simpa [Function.update_noteq hij] using hwi) hdi
      · exact hres
      by_cases hkj : k = j
      · subst hkj
        exact Or.inl hrf
      · rcases h k (List.mem_cons_of_mem j hk) with h1 | h2 | h3
        · exact Or.inl h1
        · exact Or.inr (Or.inl (by simpa [Function.update_noteq hkj] using h2))
        · exact Or.inr (Or.inr h3)

/-- Claim C1, counterexample to the boundary case: button 0 has an accepted
press at t = 200 and is released at t = 210; the very next press at
t = 320 comes exactly DEBOUNCE_MS = 120 ms after the last accepted press
(so at least DEBOUNCE_MS), yet handle_button_press emits no event, because
the source tests ticks_diff(now, last) > DEBOUNCE_MS strictly. -/
theorem claim1_counterexample :
    (ColorFill.handle_button_press (rawOnly 0) 200 ⟨fun _ => false, fun _ => 0⟩).1 = 0
    ∧ ColorFill.c1s2.was 0 = false
    ∧ ticks_diff 320 (ColorFill.c1s2.lastT 0) ≥ (ColorFill.DEBOUNCE_MS : Int)
    ∧ (ColorFill.handle_button_press (rawOnly 0) 320 ColorFill.c1s2).1 = -1 := by
  refine ⟨by decide, by decide, by decide, by decide⟩

/-- Claim C1 (amended): for every button i, with only button i pressed and
its edge armed, a raw released-to-pressed transition strictly less than
DEBOUNCE_MS after the last accepted press emits no Pressed event and leaves
every accepted timestamp unchanged, and a press strictly more than
DEBOUNCE_MS after the last accepted press is emitted as that button's index
and records the new accepted timestamp.  (The source accepts only on
ticks_diff > DEBOUNCE_MS, so a press at exactly DEBOUNCE_MS is debounced.) -/
theorem claim1_debounce_amended (i : Nat) (hi : i < NUM_BUTTONS)
    (s : ColorFill.BtnState) (now : Nat) (hw : s.was i = false) :
    (ticks_diff now (s.lastT i) < (ColorFill.DEBOUNCE_MS : Int) →
      (ColorFill.handle_button_press (rawOnly i) now s).1 = -1 ∧
      (ColorFill.handle_button_press (rawOnly i) now s).2.lastT = s.lastT)
    ∧ (ticks_diff now (s.lastT i) > (ColorFill.DEBOUNCE_MS : Int) →
      (ColorFill.handle_button_press (rawOnly i) now s).1 = (i : Int) ∧
      (ColorFill.handle_button_press (rawOnly i) now s).2.lastT
        = Function.update s.lastT i now) := by
  constructor
  · intro hlt
    exact cf_hbp_none (rawOnly i) now (List.range NUM_BUTTONS) s (fun j hj => by
      by_cases hji : j = i
      · subst hji
        exact Or.inr (Or.inr (by omega))
      · refine Or.inl ?_
        simp only [rawOnly]
        exact beq_eq_false_iff_ne.mpr hji)
  · intro hgt
    obtain ⟨L2, hsplit⟩ := range_split i NUM_BUTTONS hi
    have heq : ColorFill.handle_button_press (rawOnly i) now s
        = ColorFill.hbpFrom (rawOnly i) now (List.range i ++ i :: L2) s := by
      rw [ColorFill.handle_button_press, hsplit]
    rw [heq]
    refine cf_hbp_accept (rawOnly i) now (List.range i) i L2 s (by simp)
      (fun j hj => Or.inl ?_) (by simp [rawOnly]) hw hgt
    have hne : j ≠ i := Nat.ne_of_lt (List.mem_range.mp hj)
    simp only [rawOnly]
    exact beq_eq_false_iff_ne.mpr hne

/-- Claim C1 witness: a fresh button 2 pressed at t = 500 (more than
DEBOUNCE_MS after timestamp 0) is emitted as index 2. -/
theorem claim1_witness :
    (ColorFill.handle_button_press (rawOnly 2) 500 ⟨fun _ => false, fun _ => 0⟩).1 = 2 :=
  ((claim1_debounce_amended 2 (by decide) ⟨fun _ => false, fun _ => 0⟩ 500 rfl).2
    (by decide)).1

/-- Claim C2, counterexample: in one tick of the Landslide.py main loop with
buttons 2 and 5 simultaneously showing a new raw press, BOTH presses are
processed (the loop has no break or return), producing two Pressed events
in that tick rather than exactly one. -/
theorem claim2_counterexample :
    (Landslide.landslide_tick 1000 raw25 (fun _ => BLACK) Landslide.lsScenarioStart).2
      = [Landslide.LEvent.pressed 2, Landslide.LEvent.pressed 5] := by
  decide

/-- Claim C2 (amended): in ColorFill's debounced poll, for every raw frame,
tick time and button state, when index i is the lowest index satisfying the
accept condition, the single event returned by handle_button_press is for i
(first match wins, one event per call; the scan returns at once, so no
other press is processed in that tick).  Landslide.py's loop, by contrast,
processes every newly pressed button in the same tick (see the
counterexample). -/
theorem claim2_single_event_amended (raw : Nat → Bool) (now : Nat)
    (s : ColorFill.BtnState) (i : Nat) (hi : i < NUM_BUTTONS)
    (hri : raw i = true) (hwi : s.was i = false)
    (hdi : ticks_diff now (s.lastT i) > (ColorFill.DEBOUNCE_MS : Int))
    (hmin : ∀ j, j < i → raw j = false ∨ s.was j = true ∨
      ¬ (ticks_diff now (s.lastT j) > (ColorFill.DEBOUNCE_MS : Int))) :
    (ColorFill.handle_button_press raw now s).1 = (i : Int) := by
  obtain ⟨L2, hsplit⟩ := range_split i NUM_BUTTONS hi
  have heq : ColorFill.handle_button_press raw now s
      = ColorFill.hbpFrom raw now (List.range i ++ i :: L2) s := by
    rw [ColorFill.handle_button_press, hsplit]
  rw [heq]
  exact (cf_hbp_accept raw now (List.range i) i L2 s (by simp)
    (fun j hj => hmin j (List.mem_range.mp hj)) hri hwi hdi).1

/-- Claim C2 witness: with buttons 2 and 5 both newly pressed on a fresh
state at t = 1000, ColorFill's poll returns index 2, the lower one. -/
theorem claim2_witness :
    (ColorFill.handle_button_press raw25 1000 ⟨fun _ => false, fun _ => 0⟩).1 = 2 :=
  claim2_single_event_amended raw25 1000 ⟨fun _ => false, fun _ => 0⟩ 2 (by decide)
    rfl rfl (by decide)
    (fun j hj => Or.inl (by interval_cases j <;> rfl))

/-- Claim C3: the code violates the at-most-one-event-per-physical-press
invariant.  In Sequence.py's PLAYER_TURN scan the break sits before the
button_was_pressed update, so the handled button's history is never
recorded; holding button 4 across three ticks of a round whose order starts
with 4 makes the same continuous physical press be handled twice — the
second time as a wrong guess, driving the round into FAIL. -/
theorem claim3_double_fire :
    (Sequence.sequence_run (rawOnly 4) BLACK (fun _ => 0) 3 Sequence.seqScenarioHold).2
      = [4, 4]
    ∧ (Sequence.sequence_run (rawOnly 4) BLACK (fun _ => 0) 3 Sequence.seqScenarioHold).1.gs
        = Sequence.SGameState.FAIL := by
  exact ⟨by decide, by decide⟩

/-- Claim C4: for every random oracle of the Fisher–Yates loop, the
generated sequence (micro_shuffle applied to list(range(NUM_BUTTONS))) is a
permutation of 0..NUM_BUTTONS-1 of length NUM_BUTTONS, in which every bank
index appears exactly once. -/
theorem claim4_sequence_permutation (r : Nat → Nat) (hr : ∀ m, r m ≤ m) :
    List.Perm (Sequence.micro_shuffle r (List.range NUM_BUTTONS)) (List.range NUM_BUTTONS)
    ∧ (Sequence.micro_shuffle r (List.range NUM_BUTTONS)).length = NUM_BUTTONS
    ∧ ∀ k, k < NUM_BUTTONS →
        (Sequence.micro_shuffle r (List.range NUM_BUTTONS)).count k = 1 := by
  have hperm : List.Perm (Sequence.micro_shuffle r (List.range NUM_BUTTONS))
      (List.range NUM_BUTTONS) :=
    fisherYates_perm r hr (List.range NUM_BUTTONS) (by decide)
  refine ⟨hperm, ?_, ?_⟩
  · rw [hperm.length_eq, List.length_range]
  · intro k hk
    have hmem : k ∈ Sequence.micro_shuffle r (List.range NUM_BUTTONS) :=
      hperm.mem_iff.mpr (List.mem_range.mpr hk)
    have hnd : (Sequence.micro_shuffle r (List.range NUM_BUTTONS)).Nodup :=
      hperm.nodup_iff.mpr (List.nodup_range NUM_BUTTONS)
    exact List.count_eq_one_of_mem hnd hmem

/-- Claim C4 witness: the shuffle driven by the all-zero oracle is a
permutation of range 10. -/
theorem claim4_witness :
    List.Perm (Sequence.micro_shuffle (fun _ => 0) (List.range NUM_BUTTONS))
      (List.range NUM_BUTTONS) :=
  (claim4_sequence_permutation (fun _ => 0) (fun m => Nat.zero_le m)).1

/-- One shiftChannel call moves the channel by at most the step, never past
the target, and never away from it. -/
theorem shiftChannel_step_bounds (K a b : Nat) :
    natDist a (Landslide.shiftChannel a b K) ≤ K ∧
    (a ≤ b → a ≤ Landslide.shiftChannel a b K ∧ Landslide.shiftChannel a b K ≤ b) ∧
    (b ≤ a → b ≤ Landslide.shiftChannel a b K ∧ Landslide.shiftChannel a b K ≤ a) := by
  unfold Landslide.shiftChannel natDist
  split_ifs <;> omega

/-- Iterating shiftChannel n times closes any channel gap of at most n * K. -/
theorem shiftChannel_iter_reaches (K : Nat) :
    ∀ (n a b : Nat), natDist a b ≤ n * K →
      (fun x => Landslide.shiftChannel x b K)^[n] a = b := by
  intro n
  induction n with
  | zero =>
    intro a b h
    simp only [Function.iterate_zero, id]
    unfold natDist at h
    omega
  | succ m ih =>
    intro a b h
    rw [Function.iterate_succ_apply]
    apply ih
    have hmul : (m + 1) * K = m * K + K := by ring
    rw [hmul] at h
    unfold natDist at h ⊢
    unfold Landslide.shiftChannel
    generalize m * K = M at h ⊢
    split_ifs <;> omega

/-- The ceiling count of steps of size K covers a distance of 255. -/
theorem ceil_steps_cover (K : Nat) (hK : 0 < K) :
    255 ≤ (255 + K - 1) / K * K := by
  have h1 := Nat.div_add_mod (255 + K - 1) K
  have h2 := Nat.mod_lt (255 + K - 1) hK
  have h3 : K * ((255 + K - 1) / K) = (255 + K - 1) / K * K := Nat.mul_comm _ _
  rw [h3] at h1
  omega

/-- Iterating shift_color_towards acts channel-wise. -/
theorem shift_iter_components (t : Color) (K : Nat) :
    ∀ (n : Nat) (c : Color),
      (fun x => Landslide.shift_color_towards x t K)^[n] c =
        ((fun x => Landslide.shiftChannel x t.1 K)^[n] c.1,
         (fun x => Landslide.shiftChannel x t.2.1 K)^[n] c.2.1,
         (fun x => Landslide.shiftChannel x t.2.2 K)^[n] c.2.2) := by
  intro n
  induction n with
  | zero => intro c; rfl
  | succ m ih =>
    intro c
    rw [Function.iterate_succ_apply, Function.iterate_succ_apply,
        Function.iterate_succ_apply, Function.iterate_succ_apply]
    exact ih (Landslide.shift_color_towards c t K)

/-- Claim C5: for 8-bit colors c and t and any step size K greater than 0,
iterating shift_color_towards reaches exact tuple equality with t within
the ceiling of 255 / K calls; each channel moves by at most K per call
monotonically toward the target without overshooting; and
all_banks_same_color returns true exactly when every bank's color tuple
equals bank 0's tuple under exact equality. -/
theorem claim5_convergence (c t : Color) (K : Nat) (hK : 0 < K)
    (hc1 : c.1 ≤ 255) (hc2 : c.2.1 ≤ 255) (hc3 : c.2.2 ≤ 255)
    (ht1 : t.1 ≤ 255) (ht2 : t.2.1 ≤ 255) (ht3 : t.2.2 ≤ 255) :
    (fun x => Landslide.shift_color_towards x t K)^[(255 + K - 1) / K] c = t
    ∧ (∀ a b : Nat, natDist a (Landslide.shiftChannel a b K) ≤ K)
    ∧ (∀ a b : Nat,
        (a ≤ b → a ≤ Landslide.shiftChannel a b K ∧ Landslide.shiftChannel a b K ≤ b)
        ∧ (b ≤ a → b ≤ Landslide.shiftChannel a b K ∧ Landslide.shiftChannel a b K ≤ a))
    ∧ (∀ bc : Nat → Color,
        Landslide.all_banks_same_color bc = true ↔ ∀ i, i < NUM_BUTTONS → bc i = bc 0) := by
  refine ⟨?_, ?_, ?_, ?_⟩
  · rw [shift_iter_components]
    have hcover := ceil_steps_cover K hK
    have e1 : (fun x => Landslide.shiftChannel x t.1 K)^[(255 + K - 1) / K] c.1 = t.1 := by
      apply shiftChannel_iter_reaches K
      unfold natDist
      omega
    have e2 : (fun x => Landslide.shiftChannel x t.2.1 K)^[(255 + K - 1) / K] c.2.1 = t.2.1 := by
      apply shiftChannel_iter_reaches K
      unfold natDist
      omega
    have e3 : (fun x => Landslide.shiftChannel x t.2.2 K)^[(255 + K - 1) / K] c.2.2 = t.2.2 := by
      apply shiftChannel_iter_reaches K
      unfold natDist
      omega
    rw [e1, e2, e3]
  · intro a b
    exact (shiftChannel_step_bounds K a b).1
  · intro a b
    exact (shiftChannel_step_bounds K a b).2
  · intro bc
    unfold Landslide.all_banks_same_color Landslide.colors_match
    rw [List.all_eq_true]
    constructor
    · intro h i hilt
      exact (beq_iff_eq.mp (h i (List.mem_range.mpr hilt))).symm
    · intro h i hi
      exact beq_iff_eq.mpr (h i (List.mem_range.mp hi)).symm

/-- Claim C5 witness: from black, 7 calls with step 40 reach (255, 0, 0). -/
theorem claim5_witness :
    (fun x => Landslide.shift_color_towards x (255, 0, 0) 40)^[(255 + 40 - 1) / 40]
      (0, 0, 0) = (255, 0, 0) :=
  (claim5_convergence (0, 0, 0) (255, 0, 0) 40 (by decide) (by decide) (by decide)
    (by decide) (by decide) (by decide) (by decide)).1

/-- Claim C6: in the sequence game's player turn, an accepted press equal to
sequence_order[current_step_index] advances the cursor by exactly one,
entering WIN exactly when the cursor reaches NUM_BUTTONS and SHOW_STEP
otherwise; a differing press moves to FAIL with the cursor unchanged; and in
all cases the cursor stays at most NUM_BUTTONS. -/
theorem claim6_player_turn (s : Sequence.SState) (pressed : Nat)
    (hc : s.current_step_index < NUM_BUTTONS) :
    (pressed = s.sequence_order.getD s.current_step_index 0 →
      (Sequence.handle_player_turn s pressed).current_step_index
          = s.current_step_index + 1
      ∧ ((Sequence.handle_player_turn s pressed).gs = Sequence.SGameState.WIN
          ↔ s.current_step_index + 1 = NUM_BUTTONS)
      ∧ ((Sequence.handle_player_turn s pressed).gs = Sequence.SGameState.SHOW_STEP
          ↔ s.current_step_index + 1 < NUM_BUTTONS))
    ∧ (pressed ≠ s.sequence_order.getD s.current_step_index 0 →
      (Sequence.handle_player_turn s pressed).current_step_index
          = s.current_step_index
      ∧ (Sequence.handle_player_turn s pressed).gs = Sequence.SGameState.FAIL)
    ∧ (Sequence.handle_player_turn s pressed).current_step_index ≤ NUM_BUTTONS := by
  refine ⟨?_, ?_, ?_⟩
  · intro hp
    have hstep : Sequence.handle_player_turn s pressed =
        { s with current_step_index := s.current_step_index + 1,
                 gs := if s.current_step_index + 1 ≥ NUM_BUTTONS then Sequence.SGameState.WIN
                       else Sequence.SGameState.SHOW_STEP } := by
      simp only [Sequence.handle_player_turn]
      rw [if_pos hp]
    rw [hstep]
    refine ⟨rfl, ?_, ?_⟩
    · show (if s.current_step_index + 1 ≥ NUM_BUTTONS then Sequence.SGameState.WIN
          else Sequence.SGameState.SHOW_STEP) = Sequence.SGameState.WIN
        ↔ s.current_step_index + 1 = NUM_BUTTONS
      by_cases hge : s.current_step_index + 1 ≥ NUM_BUTTONS
      · rw [if_pos hge]
        exact ⟨fun _ => by omega, fun _ => rfl⟩
      · rw [if_neg hge]
        exact ⟨fun h => absurd h (by decide), fun h => by omega⟩
    · show (if s.current_step_index + 1 ≥ NUM_BUTTONS then Sequence.SGameState.WIN
          else Sequence.SGameState.SHOW_STEP) = Sequence.SGameState.SHOW_STEP
        ↔ s.current_step_index + 1 < NUM_BUTTONS
      by_cases hge : s.current_step_index + 1 ≥ NUM_BUTTONS
      · rw [if_pos hge]
        exact ⟨fun h => absurd h (by decide), fun h => by omega⟩
      · rw [if_neg hge]
        exact ⟨fun _ => by omega, fun _ => rfl⟩
  · intro hp
    have hstep : Sequence.handle_player_turn s pressed
        = { s with gs := Sequence.SGameState.FAIL } := by
      simp only [Sequence.handle_player_turn]
      rw [if_neg hp]
    rw [hstep]
    exact ⟨rfl, rfl⟩
  · by_cases hp : pressed = s.sequence_order.getD s.current_step_index 0
    · have hstep : (Sequence.handle_player_turn s pressed).current_step_index
          = s.current_step_index + 1 := by
        simp only [Sequence.handle_player_turn]
        rw [if_pos hp]
      rw [hstep]
      omega
    · have hstep : (Sequence.handle_player_turn s pressed).current_step_index
          = s.current_step_index := by
        simp only [Sequence.handle_player_turn]
        rw [if_neg hp]
      rw [hstep]
      omega

/-- Claim C6 witness: with the identity order at cursor 0, pressing 0
advances to SHOW_STEP. -/
theorem claim6_witness :
    (Sequence.handle_player_turn Sequence.seqScenario25 0).gs
      = Sequence.SGameState.SHOW_STEP :=
  (((claim6_player_turn Sequence.seqScenario25 0 (by decide)).1 (by decide)).2.2).mpr
    (by decide)

/-- Claim C7: in the color-fill game, a press on an already-filled bank
leaves the whole game state unchanged (a no-op, not an error); a press on an
unfilled bank fills exactly that bank with the target color and enters
WIN_STATE exactly when all banks are then filled, leaving the state tag
unchanged otherwise; and in the concrete scenario that starts from one
filled bank (target (255, 0, 0) at index 3), pressing the remaining nine
distinct banks enters WIN_STATE exactly on the ninth new press. -/
theorem claim7_fill_press :
    (∀ (s : ColorFill.CFState) (b : Nat), s.is_filled b = true →
      ColorFill.color_fill_press s b = s)
    ∧ (∀ (s : ColorFill.CFState) (b : Nat),
      s.gs = ColorFill.CFGameState.COLOR_FILL_GAME → s.is_filled b = false →
      (ColorFill.color_fill_press s b).is_filled = Function.update s.is_filled b true
      ∧ (ColorFill.color_fill_press s b).bank_colors
          = Function.update s.bank_colors b s.target_color
      ∧ (ColorFill.color_fill_press s b).target_color = s.target_color
      ∧ ((ColorFill.color_fill_press s b).gs = ColorFill.CFGameState.WIN_STATE
          ↔ ColorFill.all_filled (Function.update s.is_filled b true) = true)
      ∧ (ColorFill.all_filled (Function.update s.is_filled b true) = false →
          (ColorFill.color_fill_press s b).gs = s.gs))
    ∧ ColorFill.color_fill_press ColorFill.cfScenarioStart 3 = ColorFill.cfScenarioStart
    ∧ (List.foldl ColorFill.color_fill_press ColorFill.cfScenarioStart
        [0, 1, 2, 4, 5, 6, 7, 8]).gs = ColorFill.CFGameState.COLOR_FILL_GAME
    ∧ (List.foldl ColorFill.color_fill_press ColorFill.cfScenarioStart
        [0, 1, 2, 4, 5, 6, 7, 8, 9]).gs = ColorFill.CFGameState.WIN_STATE := by
  refine ⟨?_, ?_, ?_, ?_, ?_⟩
  · intro s b hb
    unfold ColorFill.color_fill_press
    rw [if_pos hb]
  · intro s b hgs hb
    have hstep : ColorFill.color_fill_press s b =
        (if ColorFill.all_filled (Function.update s.is_filled b true) then
          { s with bank_colors := Function.update s.bank_colors b s.target_color,
                   is_filled := Function.update s.is_filled b true,
                   gs := ColorFill.CFGameState.WIN_STATE }
        else
          { s with bank_colors := Function.update s.bank_colors b s.target_color,
                   is_filled := Function.update s.is_filled b true }) := by
      unfold ColorFill.color_fill_press
      rw [if_neg (by simp [hb])]
    rw [hstep]
    by_cases hall : ColorFill.all_filled (Function.update s.is_filled b true) = true
    · rw [if_pos hall]
      refine ⟨rfl, rfl, rfl, ⟨fun _ => hall, fun _ => rfl⟩, ?_⟩
      intro hf
      rw [hf] at hall
      exact Bool.noConfusion hall
    · have hallf : ColorFill.all_filled (Function.update s.is_filled b true) = false := by
        simpa using hall
      rw [if_neg hall]
      refine ⟨rfl, rfl, rfl, ?_, fun _ => rfl⟩
      constructor
      · intro h
        rw [hgs] at h
        exact absurd h (by decide)
      · intro h
        rw [h] at hallf
        exact Bool.noConfusion hallf
  · rfl
  · decide
  · decide

/-- Claim C7 witness: the no-op clause applied to the scenario state, whose
bank 3 is filled. -/
theorem claim7_witness :
    ColorFill.color_fill_press ColorFill.cfScenarioStart 3 = ColorFill.cfScenarioStart :=
  claim7_fill_press.1 ColorFill.cfScenarioStart 3 (by decide)

/-- First-match-wins for ColorHunt's plain edge-detection scan: if the
indices before i are not pressed and i shows a new press, the scan returns
i. -/
theorem ch_hbp_accept (raw : Nat → Bool) :
    ∀ (L1 : List Nat) (i : Nat) (L2 : List Nat) (was : Nat → Bool),
      (∀ j ∈ L1, raw j = false) → raw i = true → was i = false →
      (ColorHunt.hbpFrom raw (L1 ++ i :: L2) was).1 = (i : Int) := by
  intro L1
  induction L1 with
  | nil =>
    intro i L2 was _ hri hwi
    simp [ColorHunt.hbpFrom, hri, hwi]
  | cons j rest ih =>
    intro i L2 was h hri hwi
    have hrj : raw j = false := h j (List.mem_cons_self j rest)
    have hij : i ≠ j := by
      intro e
      rw [e, hrj] at hri
      exact Bool.noConfusion hri
    have happ : (j :: rest) ++ i :: L2 = j :: (rest ++ i :: L2) := rfl
    rw [happ]
    have hstep : ColorHunt.hbpFrom raw (j :: (rest ++ i :: L2)) was
        = ColorHunt.hbpFrom raw (rest ++ i :: L2) (Function.update was j (raw j)) := by
      simp [ColorHunt.hbpFrom, hrj]
    rw [hstep]
    exact ih i L2 (Function.update was j (raw j))
      (fun k hk => h k (List.mem_cons_of_mem j hk)) hri
      (by rw [Function.update_noteq hij]; exact hwi)

/-- The select branch of ColorHunt.py from a fresh state: pressing button b
adopts the color DISPLAYED on bank b (an entry of the shuffled palette) as
the target and enters MEMORIZE_PHASE. -/
theorem ch_run_select (r : Nat → Nat) (b : Nat) (hb : b < NUM_BUTTONS) :
    (ColorHunt.run_waiting_for_start (rawOnly b) r ColorHunt.chFresh).target_color
      = (ColorHunt.setup_target_display r ColorHunt.chFresh).bank_colors.getD b BLACK
    ∧ (ColorHunt.run_waiting_for_start (rawOnly b) r ColorHunt.chFresh).gs
      = ColorHunt.CHGameState.MEMORIZE_PHASE := by
  have hp1 : (ColorHunt.handle_button_press (rawOnly b) (fun _ => false)).1 = (b : Int) := by
    obtain ⟨L2, hsplit⟩ := range_split b NUM_BUTTONS hb
    unfold ColorHunt.handle_button_press
    rw [hsplit]
    refine ch_hbp_accept (rawOnly b) (List.range b) b L2 (fun _ => false)
      (fun j hj => ?_) (by simp [rawOnly]) rfl
    simp only [rawOnly]
    exact beq_eq_false_iff_ne.mpr (Nat.ne_of_lt (List.mem_range.mp hj))
  have hbint : ((b : Int)) ≠ -1 := by omega
  have hrun : ColorHunt.run_waiting_for_start (rawOnly b) r ColorHunt.chFresh
      = ColorHunt.select_phase (rawOnly b)
          { ColorHunt.setup_target_display r ColorHunt.chFresh with
            start_display_ready := true } := by
    rw [ColorHunt.run_waiting_for_start,
      if_pos (show (!ColorHunt.chFresh.start_display_ready) = true from rfl)]
  have hwas : ({ ColorHunt.setup_target_display r ColorHunt.chFresh with
      start_display_ready := true } : ColorHunt.CHState).was = (fun _ => false) := rfl
  rw [hrun, ColorHunt.select_phase, hwas, hp1, if_pos hbint, Int.toNat_natCast]
  constructor
  · dsimp only
  · dsimp only

/-- Claim C8, counterexample: in ColorHunt.py the select display is a
SHUFFLED copy of the palette, so pressing button 3 on a fresh setup sets
the target to the color displayed on bank 3, which for this shuffle oracle
differs from COLOR_PALETTE[3] — the machine still transitions
(to MEMORIZE_PHASE), but the chosen target is not palette[3]. -/
theorem claim8_counterexample :
    (ColorHunt.run_waiting_for_start (rawOnly 3) (fun _ => 0) ColorHunt.chFresh).target_color
      ≠ ColorHunt.COLOR_PALETTE.getD 3 BLACK
    ∧ (ColorHunt.run_waiting_for_start (rawOnly 3) (fun _ => 0) ColorHunt.chFresh).gs
      = ColorHunt.CHGameState.MEMORIZE_PHASE := by
  refine ⟨by decide, by decide⟩

/-- Claim C8 (amended): from a fresh setup the 10 banks display 10
all-distinct source colors in every variant, and pressing button 3 (or any
button b) adopts the color displayed on that bank as the target and enters
the fill/guess flow: in ColorFill.py the palette is assigned in index
order, so the chosen target IS palette[3] and the state becomes
COLOR_FILL_GAME; in ColorHunt.py the palette is shuffled first, so the
chosen target is the shuffled entry at the pressed index (not palette[3]
in general) and the state becomes MEMORIZE_PHASE. -/
theorem claim8_select_amended (r : Nat → Nat) (hr : ∀ m, r m ≤ m) :
    (ColorFill.setup_color_select_display ColorFill.cfFresh).bank_colors
      = (fun i => ColorFill.COLOR_PALETTE.getD i BLACK)
    ∧ ColorFill.COLOR_PALETTE.Nodup
    ∧ ColorFill.COLOR_PALETTE.length = NUM_BUTTONS
    ∧ (ColorFill.run_game_loop (rawOnly 3) 200 ColorFill.cfFresh).target_color
      = ColorFill.COLOR_PALETTE.getD 3 BLACK
    ∧ (ColorFill.run_game_loop (rawOnly 3) 200 ColorFill.cfFresh).gs
      = ColorFill.CFGameState.COLOR_FILL_GAME
    ∧ (ColorHunt.setup_target_display r ColorHunt.chFresh).bank_colors.Nodup
    ∧ (ColorHunt.setup_target_display r ColorHunt.chFresh).bank_colors.length
      = NUM_BUTTONS
    ∧ ∀ b, b < NUM_BUTTONS →
        (ColorHunt.run_waiting_for_start (rawOnly b) r ColorHunt.chFresh).target_color
          = (ColorHunt.setup_target_display r ColorHunt.chFresh).bank_colors.getD b BLACK
        ∧ (ColorHunt.run_waiting_for_start (rawOnly b) r ColorHunt.chFresh).gs
          = ColorHunt.CHGameState.MEMORIZE_PHASE := by
  have hperm : List.Perm (ColorHunt.shuffle_list r ColorHunt.COLOR_PALETTE)
      ColorHunt.COLOR_PALETTE :=
    fisherYates_perm r hr ColorHunt.COLOR_PALETTE (by decide)
  have hlen : (ColorHunt.shuffle_list r ColorHunt.COLOR_PALETTE).length = NUM_BUTTONS := by
    rw [hperm.length_eq]
    rfl
  have htake : (ColorHunt.shuffle_list r ColorHunt.COLOR_PALETTE).take NUM_BUTTONS
      = ColorHunt.shuffle_list r ColorHunt.COLOR_PALETTE := by
    rw [← hlen]
    exact List.take_length _
  have hbc : (ColorHunt.setup_target_display r ColorHunt.chFresh).bank_colors
      = ColorHunt.shuffle_list r ColorHunt.COLOR_PALETTE := by
    rw [ColorHunt.setup_target_display, htake]
  refine ⟨rfl, by decide, by decide, by decide, by decide, ?_, ?_, ?_⟩
  · rw [hbc]
    exact hperm.nodup_iff.mpr (by decide)
  · rw [hbc]
    exact hlen
  · intro b hb
    exact ch_run_select r b hb

/-- Claim C8 witness: the ColorHunt clause of the amended claim at the
all-zero shuffle oracle and button 3. -/
theorem claim8_witness :
    (ColorHunt.run_waiting_for_start (rawOnly 3) (fun _ => 0) ColorHunt.chFresh).gs
      = ColorHunt.CHGameState.MEMORIZE_PHASE :=
  ((claim8_select_amended (fun _ => 0) (fun m => Nat.zero_le m)).2.2.2.2.2.2.2
    3 (by decide)).2

/-- Claim C9, counterexample: the Landslide.py / Sequence.py / main.py /
CatchTheColor.py entry points have no try/except around the tick; a tick
that raises makes the loop terminate with the error instead of continuing. -/
theorem claim9_counterexample :
    MainLoop.bareLoop (fun s => Except.error ((), s)) 1 (0 : Nat)
      = Except.error () := rfl

/-- Claim C9 (amended): in ColorFill.py and ColorHunt.py the top-level loop
wraps each tick in try/except, so for EVERY fallible tick body and every
number of iterations the guarded loop finishes normally — it never
terminates on a fault; the other variants' loops lack the handler (see the
counterexample). -/
theorem claim9_loop_amended {S E : Type} (tick : S → Except (E × S) S) :
    ∀ (n : Nat) (s : S), ∃ s1, MainLoop.guardedLoop tick n s = Except.ok s1 := by
  intro n
  induction n with
  | zero => intro s; exact ⟨s, rfl⟩
  | succ m ih =>
    intro s
    unfold MainLoop.guardedLoop
    cases tick s with
    | ok s1 => exact ih s1
    | error es => exact ih es.2

/-- Claim C10: setup_color_fill_game establishes, and every press in the
COLOR_FILL_GAME branch preserves, the invariant that a bank is marked
filled exactly when it shows the (non-black, palette) target color, with
unfilled banks staying black — so the all(is_filled) win test agrees with
the displayed colors. -/
theorem claim10_fill_invariant :
    (∀ (s : ColorFill.CFState) (ii : Nat) (tgt : Color),
        ii < NUM_BUTTONS → tgt ∈ ColorFill.COLOR_PALETTE → s.target_color = tgt →
        ColorFill.cf_invariant (ColorFill.setup_color_fill_game s ii tgt))
    ∧ (∀ (s : ColorFill.CFState) (b : Nat), ColorFill.cf_invariant s →
        ColorFill.cf_invariant (ColorFill.color_fill_press s b)) := by
  constructor
  · intro s ii tgt hii htgt hst
    have htb : tgt ≠ BLACK := by
      have hall : ∀ c ∈ ColorFill.COLOR_PALETTE, c ≠ BLACK := by decide
      exact hall tgt htgt
    intro i hi
    by_cases hib : i = ii
    · subst hib
      constructor
      · show Function.update (fun _ => false) i true i = true
          ↔ Function.update (fun _ => BLACK) i tgt i = s.target_color
        rw [Function.update_same, Function.update_same, hst]
        simp
      · show Function.update (fun _ => false) i true i = false
          → Function.update (fun _ => BLACK) i tgt i = BLACK
        rw [Function.update_same]
        intro h
        exact Bool.noConfusion h
    · constructor
      · show Function.update (fun _ => false) ii true i = true
          ↔ Function.update (fun _ => BLACK) ii tgt i = s.target_color
        rw [Function.update_noteq hib, Function.update_noteq hib, hst]
        constructor
        · intro h
          exact Bool.noConfusion h
        · intro h
          exact absurd h.symm htb
      · show Function.update (fun _ => false) ii true i = false
          → Function.update (fun _ => BLACK) ii tgt i = BLACK
        rw [Function.update_noteq hib, Function.update_noteq hib]
        intro _
        rfl
  · intro s b hinv
    by_cases hfb : s.is_filled b = true
    · have hstep : ColorFill.color_fill_press s b = s := by
        unfold ColorFill.color_fill_press
        rw [if_pos hfb]
      rw [hstep]
      exact hinv
    · have hfb2 : s.is_filled b = false := by simpa using hfb
      have hstep : ColorFill.color_fill_press s b =
          (if ColorFill.all_filled (Function.update s.is_filled b true) then
            { s with bank_colors := Function.update s.bank_colors b s.target_color,
                     is_filled := Function.update s.is_filled b true,
                     gs := ColorFill.CFGameState.WIN_STATE }
          else
            { s with bank_colors := Function.update s.bank_colors b s.target_color,
                     is_filled := Function.update s.is_filled b true }) := by
        unfold ColorFill.color_fill_press
        rw [if_neg (by simp [hfb2])]
      rw [hstep]
      have hcore : ∀ i, i < NUM_BUTTONS →
          (Function.update s.is_filled b true i = true
            ↔ Function.update s.bank_colors b s.target_color i = s.target_color)
          ∧ (Function.update s.is_filled b true i = false
            → Function.update s.bank_colors b s.target_color i = BLACK) := by
        intro i hi
        by_cases hib : i = b
        · subst hib
          constructor
          · rw [Function.update_same, Function.update_same]
            simp
          · rw [Function.update_same]
            intro h
            exact Bool.noConfusion h
        · constructor
          · rw [Function.update_noteq hib, Function.update_noteq hib]
            exact (hinv i hi).1
          · rw [Function.update_noteq hib, Function.update_noteq hib]
            exact (hinv i hi).2
      by_cases hall : ColorFill.all_filled (Function.update s.is_filled b true) = true
      · rw [if_pos hall]
        intro i hi
        exact hcore i hi
      · rw [if_neg hall]
        intro i hi
        exact hcore i hi

/-- Claim C10 witness: the invariant holds in the concrete scenario state
produced by setup_color_fill_game with target (255, 0, 0) at index 3. -/
theorem claim10_witness :
    ColorFill.cf_invariant ColorFill.cfScenarioStart :=
  claim10_fill_invariant.1
    { gs := ColorFill.CFGameState.COLOR_FILL_GAME,
      target_color := (255, 0, 0),
      initial_button_index := 3,
      start_display_ready := false,
      is_filled := fun _ => false,
      bank_colors := fun _ => BLACK,
      btn := ⟨fun _ => false, fun _ => 0⟩ } 3 (255, 0, 0) (by decide) (by decide) rfl

end Landscape
